import Mathlib

/-!
Shallow embedding of the `search4people` workflow core
(`src/langgraph_flow.py`, `src/llm.py`, `src/tools.py`).

Python dictionaries that play the role of records are modelled as Lean
structures with `Option` fields: `none` models an absent key (or a `None`
value, which the code treats identically through truthiness checks).
Python truthiness of the optional fields is made explicit through the
`pyTruthy*` helpers.  The three external capabilities (web search, page
fetch, text generation) are parameters, as the spec treats them.
-/

namespace Search4People

/-- Identity fields handed to the flow (`inputs` mapping). -/
structure Inputs where
  first_name : Option String := none
  last_name : Option String := none
  surname : Option String := none
  phone : Option String := none
  deriving DecidableEq

/-- A raw web-search result as returned by `search_duckduckgo`:
keys `title`, `href`, `body`. -/
structure RawResult where
  title : Option String := none
  href : Option String := none
  body : Option String := none
  deriving DecidableEq

/-- A candidate record as built by `_search_candidates`:
keys `title`, `url`, `snippet`, `source_query`. -/
structure Candidate where
  title : Option String := none
  url : String := ""
  snippet : Option String := none
  source_query : String := ""
  deriving DecidableEq

/-- The workflow state threaded through the graph nodes
(the `FlowState` TypedDict plus the `user_decision` key the nodes read). -/
structure FlowState where
  inputs : Option Inputs := none
  plan : Option (List String) := none
  candidates : Option (List Candidate) := none
  current_index : Option Int := none
  selected : Option Candidate := none
  details : Option Candidate := none
  summary : Option String := none
  queries : Option (List String) := none
  report : Option String := none
  awaiting_user : Option Bool := none
  user_decision : Option String := none
  deriving DecidableEq

/-- The payload handed to `GRAPH.invoke`: a flow state possibly carrying a
`prior_state` mapping to be merged by the ingest node. -/
structure InvokeState where
  state : FlowState := {}
  prior_state : Option FlowState := none
  deriving DecidableEq

/-- Python `str.strip()` (whitespace stripping on both ends), modelled over
the character list so that it evaluates inside the kernel. -/
def pyStrip (s : String) : String :=
  ⟨((s.data.dropWhile Char.isWhitespace).reverse.dropWhile Char.isWhitespace).reverse⟩

/-- Python `str.lower()` (ASCII lowering), modelled over the character list
so that it evaluates inside the kernel. -/
def pyLower (s : String) : String :=
  ⟨s.data.map Char.toLower⟩

/-- Python slicing `s[:n]` (a prefix of at most `n` characters), modelled
over the character list so that it evaluates inside the kernel. -/
def pyTake (s : String) (n : Nat) : String :=
  ⟨s.data.take n⟩

/-- Python truthiness of an optional string (`None` and `""` are falsy). -/
def pyTruthyStr (o : Option String) : Bool :=
  match o with
  | none => false
  | some s => !s.isEmpty

/-- Python truthiness of an optional list (`None` and `[]` are falsy). -/
def pyTruthyList {α : Type} (o : Option (List α)) : Bool :=
  match o with
  | none => false
  | some l => !l.isEmpty

/-- Python expression `sel.get("title") or sel.get("url")` on a candidate. -/
def pyOrTitleUrl (c : Candidate) : String :=
  match c.title with
  | some t => if t.isEmpty then c.url else t
  | none => c.url

/-- The values of `inputs` at the keys `_make_queries` iterates over, in
source order; an absent `inputs` mapping reads as all-absent. -/
def inputFields (o : Option Inputs) : List (Option String) :=
  match o with
  | none => [none, none, none, none]
  | some i => [i.first_name, i.last_name, i.surname, i.phone]

/-- Lookup `(inputs or \x7b\x7d).get(k) or ""` for a single field. -/
def inputGetStr (o : Option Inputs) (f : Inputs → Option String) : String :=
  (o.bind f).getD ""

/-- The `base` string of `_make_queries`: present (truthy) field values are
trimmed and joined with single spaces, then the join is trimmed. -/
def mkBase (o : Option Inputs) : String :=
  let parts := (inputFields o).filterMap fun v =>
    match v with
    | some s => if s.isEmpty then none else some (pyStrip s)
    | none => none
  pyStrip (String.intercalate " " parts)

/-- `_make_queries` from `langgraph_flow.py`: build the fixed query list
from `base`, append the phone-qualified query when `phone` is truthy, and
truncate to the first 5 entries. -/
def _make_queries (o : Option Inputs) : List String :=
  let base := mkBase o
  let queries : List String :=
    if !base.isEmpty then
      [base, base ++ " linkedin", base ++ " github",
       base ++ " twitter", base ++ " facebook"]
      ++ (if pyTruthyStr (o.bind Inputs.phone) then
            [base ++ " phone " ++ (o.bind Inputs.phone).getD ""]
          else [])
    else []
  queries.take 5

/-- The cleaned URL of a raw result: `(r.get("href") or "").strip()`. -/
def cleanHref (r : RawResult) : String :=
  pyStrip (r.href.getD "")

/-- The candidate appended by `_search_candidates` for a raw result `r`
produced by query `q`. -/
def mkCand (q : String) (r : RawResult) : Candidate :=
  { title := r.title, url := cleanHref r, snippet := r.body, source_query := q }

/-- One iteration of the inner loop of `_search_candidates`: skip results
with an empty or already-seen URL, otherwise append the candidate and record
the URL in the seen set (modelled as a membership list). -/
def searchStep (q : String) (acc : List Candidate × List String)
    (r : RawResult) : List Candidate × List String :=
  let href := cleanHref r
  if href.isEmpty || href ∈ acc.2 then acc
  else (acc.1 ++ [mkCand q r], href :: acc.2)

/-- `_search_candidates` from `langgraph_flow.py`: iterate the queries, call
the external search capability for each, and accumulate deduplicated
candidates with a seen-URL set shared across the whole call. -/
def _search_candidates (search : String → Nat → List RawResult)
    (queries : List String) (max_results : Nat := 5) : List Candidate :=
  (queries.foldl
    (fun acc q => (search q max_results).foldl (searchStep q) acc)
    ([], [])).1

/-- `_collect_details` from `langgraph_flow.py`: copy the candidate, try to
fetch a page title for its URL, and set `title` only when a non-empty title
was fetched and the candidate has no truthy title of its own. -/
def _collect_details (fetchTitle : String → Option String)
    (candidate : Candidate) : Candidate :=
  let t := fetchTitle candidate.url
  if pyTruthyStr t && !pyTruthyStr candidate.title then
    { candidate with title := t }
  else candidate

/-- `DummyLLM.invoke` from `llm.py` on a string message: a fixed prefix tag,
the first 4000 characters of the message, and a fixed trailer. -/
def DummyLLM.invoke (text : String) : String :=
  "[FALLBACK REPORT]\n" ++ pyTake text 4000 ++
    "\n-- End of fallback. Provide API keys for better results."

/-- Rendering of an optional string value in Python dict-literal style
(`None` for an absent value, single-quoted otherwise). -/
def pyShowOptStr (o : Option String) : String :=
  match o with
  | none => "None"
  | some s => "\x27" ++ s ++ "\x27"

/-- Rendering of the `inputs` mapping in Python dict-literal style. -/
def pyShowInputs (o : Option Inputs) : String :=
  match o with
  | none => "\x7b\x7d"
  | some i =>
      "\x7b\x27first_name\x27: " ++ pyShowOptStr i.first_name ++
      ", \x27last_name\x27: " ++ pyShowOptStr i.last_name ++
      ", \x27surname\x27: " ++ pyShowOptStr i.surname ++
      ", \x27phone\x27: " ++ pyShowOptStr i.phone ++ "\x7d"

/-- Rendering of a candidate mapping in Python dict-literal style. -/
def pyShowCand (o : Option Candidate) : String :=
  match o with
  | none => "\x7b\x7d"
  | some c =>
      "\x7b\x27title\x27: " ++ pyShowOptStr c.title ++
      ", \x27url\x27: " ++ pyShowOptStr (some c.url) ++
      ", \x27snippet\x27: " ++ pyShowOptStr c.snippet ++
      ", \x27source_query\x27: " ++ pyShowOptStr (some c.source_query) ++ "\x7d"

/-- The prompt assembled by `_make_report` (`langgraph_flow.py`): fixed
instructional framing around the inputs, the selected candidate, and the
collected details. -/
def reportPrompt (state : FlowState) : String :=
  "Create a concise, structured portfolio/report about the person based on inputs and collected details.\n" ++
  "Include: Basic info (name, phone), links, inferred roles, and any notable summaries from sources.\n" ++
  "If data is sparse, state limitations.\n\n" ++
  "Inputs: " ++ pyShowInputs state.inputs ++ "\n\n" ++
  "Selected candidate: " ++ pyShowCand state.selected ++ "\n\n" ++
  "Collected details: " ++ pyShowCand state.details ++ "\n\n" ++
  "Return a markdown-like text."

/-- `_make_report` from `langgraph_flow.py`: assemble the prompt and call
`llm.generate_text(prompt, max_tokens=2048)` on the configured LLM; the
generation capability is a parameter that may fail (raise). -/
def _make_report (generate_text : String → Nat → Except String String)
    (state : FlowState) : Except String String :=
  generate_text (reportPrompt state) 2048

/-- The `generate_text` attribute looked up on `DummyLLM` by `_make_report`
when no LLM provider is configured: the class defines only `invoke`, so the
attribute lookup fails with an `AttributeError`. -/
def dummyGenerateText : String → Nat → Except String String :=
  fun _ _ =>
    Except.error "AttributeError: DummyLLM object has no attribute generate_text"

/-- The candidate list the nodes work on: `state.get("candidates") or []`. -/
def candidatesOf (s : FlowState) : List Candidate := s.candidates.getD []

/-- The normalized decision: `(state.get("user_decision") or "").strip().lower()`. -/
def decisionOf (s : FlowState) : String := pyLower (pyStrip (s.user_decision.getD ""))

/-- The working index: `int(state.get("current_index") or 0)`. -/
def idxOf (s : FlowState) : Int := s.current_index.getD 0

/-- Truthiness of the `awaiting_user` flag. -/
def awaitingTruthy (s : FlowState) : Bool := s.awaiting_user.getD false

/-- Python list indexing `l[i]`: non-negative indexes are direct, negative
indexes wrap from the end, anything else raises IndexError (`none`). -/
def pyIndex {α : Type} (l : List α) (i : Int) : Option α :=
  if 0 ≤ i then l.get? i.toNat
  else if 0 ≤ i + l.length then l.get? (i + l.length).toNat
  else none

/-- The affirmative decision tokens of the decider node. -/
def affirmativeTokens : List String := ["yes", "y", "match", "true"]

/-- The negative decision tokens of the decider node. -/
def negativeTokens : List String := ["no", "n", "next", "false"]

/-- The fixed 5-step plan set by the planner node. -/
def planSteps : List String :=
  ["Create person search plan",
   "Execute search and prepare candidates",
   "Request user confirmation on best candidate",
   "Collect details on confirmed candidate",
   "Prepare report and store in DB"]

/-- `_node_ingest`: when a `prior_state` mapping is supplied, overlay the
explicitly provided `inputs` and `user_decision` onto a copy of it;
otherwise pass the incoming state through unchanged. -/
def _node_ingest (inv : InvokeState) : FlowState :=
  match inv.prior_state with
  | some prior =>
      let merged :=
        if inv.state.inputs.isSome then { prior with inputs := inv.state.inputs }
        else prior
      if inv.state.user_decision.isSome then
        { merged with user_decision := inv.state.user_decision }
      else merged
  | none => inv.state

/-- `_node_planner`: set the fixed 5-step plan when `inputs` is truthy and
`plan` is not; otherwise leave the state unchanged. -/
def _node_planner (state : FlowState) : FlowState :=
  if state.inputs.isSome && !pyTruthyList state.plan then
    { state with plan := some planSteps }
  else state

/-- `_node_searcher`: when `candidates` is falsy and `inputs` truthy, build
the queries, run the search adapter with `max_results=5`, and reset
`current_index` to 0; otherwise a no-op. -/
def _node_searcher (search : String → Nat → List RawResult)
    (state : FlowState) : FlowState :=
  if !pyTruthyList state.candidates && state.inputs.isSome then
    let queries := _make_queries state.inputs
    { state with
        queries := some queries,
        candidates := some (_search_candidates search queries 5),
        current_index := some 0 }
  else state

/-- `_route_after_search`: the conditional edge out of the searcher node. -/
def _route_after_search (state : FlowState) : String :=
  let user_decision := decisionOf state
  let candidates := candidatesOf state
  let selected_exists := state.selected.isSome
  if selected_exists && (user_decision == "collect" || user_decision == "report") then
    if user_decision == "collect" then "collector" else "reporter"
  else if !selected_exists then
    if candidates.isEmpty then "finish"
    else if user_decision.isEmpty then "ask"
    else "decider"
  else "finalize"

/-- `_node_ask`: set `awaiting_user = True`. -/
def _node_ask (state : FlowState) : FlowState :=
  { state with awaiting_user := some true }

/-- `_node_decider`: interpret the normalized decision; affirmative tokens
select `candidates[idx]` (Python indexing, may raise), negative tokens
advance the index or run the broadened retry, anything else re-asks. -/
def _node_decider (search : String → Nat → List RawResult)
    (state : FlowState) : Except String FlowState :=
  let decision := decisionOf state
  let candidates := candidatesOf state
  let idx : Int := idxOf state
  if decision ∈ affirmativeTokens then
    if candidates.isEmpty then Except.ok state
    else
      match pyIndex candidates idx with
      | some sel =>
          Except.ok { state with
            selected := some sel,
            awaiting_user := some false,
            summary := some (pyOrTitleUrl sel) }
      | none => Except.error "IndexError: list index out of range"
  else if decision ∈ negativeTokens then
    let idx := idx + 1
    if idx < (candidates.length : Int) then
      Except.ok { state with current_index := some idx, awaiting_user := some true }
    else
      let broadened := (state.queries.getD []) ++
        [inputGetStr state.inputs Inputs.first_name ++ " " ++
           inputGetStr state.inputs Inputs.last_name ++ " profile",
         inputGetStr state.inputs Inputs.first_name ++ " " ++
           inputGetStr state.inputs Inputs.last_name ++ " resume"]
      let new_candidates := _search_candidates search broadened 3
      if !new_candidates.isEmpty then
        Except.ok { state with
          candidates := some new_candidates,
          current_index := some 0,
          awaiting_user := some true }
      else
        Except.ok { state with
          awaiting_user := some false,
          summary := some "Exhausted candidates without a match." }
  else
    Except.ok { state with awaiting_user := some true }

/-- `_route_after_decider`: the conditional edge out of the decider node. -/
def _route_after_decider (state : FlowState) : String :=
  if state.selected.isSome then "collector"
  else if awaitingTruthy state then "ask" else "finish"

/-- `_node_collector`: enrich the selected candidate into `details` and
derive a summary when absent; a no-op without a selection. -/
def _node_collector (fetchTitle : String → Option String)
    (state : FlowState) : FlowState :=
  match state.selected with
  | some sel =>
      let state := { state with details := some (_collect_details fetchTitle sel) }
      if !pyTruthyStr state.summary then
        { state with summary := some (pyOrTitleUrl sel) }
      else state
  | none => state

/-- `_route_after_collect`: the conditional edge out of the collector node. -/
def _route_after_collect (state : FlowState) : String :=
  if decisionOf state ∈ affirmativeTokens then "reporter" else "finalize"

/-- The first step of `_node_reporter`: populate `details` on demand when a
selection exists and `details` is falsy. -/
def reporterPrep (fetchTitle : String → Option String)
    (state : FlowState) : FlowState :=
  match state.details, state.selected with
  | none, some sel => { state with details := some (_collect_details fetchTitle sel) }
  | _, _ => state

/-- `_node_reporter`: populate `details` on demand, generate the report via
`_make_report`, store it and clear `awaiting_user`. -/
def _node_reporter (fetchTitle : String → Option String)
    (generate_text : String → Nat → Except String String)
    (state : FlowState) : Except String FlowState :=
  let state := reporterPrep fetchTitle state
  match _make_report generate_text state with
  | Except.ok report_text =>
      Except.ok { state with report := some report_text, awaiting_user := some false }
  | Except.error e => Except.error e

/-- `_node_finalize`: clear `awaiting_user` and derive a summary from the
selection when one exists and no summary is set. -/
def _node_finalize (state : FlowState) : FlowState :=
  let state := { state with awaiting_user := some false }
  match state.selected with
  | some sel =>
      if !pyTruthyStr state.summary then
        { state with summary := some (pyOrTitleUrl sel) }
      else state
  | none => state

/-- `_node_finish`: clear `awaiting_user` and set the fixed no-candidates
message when nothing was found at all. -/
def _node_finish (state : FlowState) : FlowState :=
  let state := { state with awaiting_user := some false }
  if !pyTruthyStr state.summary then
    if !state.selected.isSome && !pyTruthyList state.candidates then
      { state with summary := some "No candidates found. Adjust search terms and try again." }
    else state
  else state

/-- The three external capabilities the workflow core calls. -/
structure Caps where
  search : String → Nat → List RawResult
  fetchTitle : String → Option String
  generate_text : String → Nat → Except String String

/-- The terminal nodes of one graph traversal (edges into `END`). -/
inductive TermNode
  | ask
  | reporter
  | finalize
  | finish
  deriving DecidableEq

/-- The reporter node followed by its edge into `END`. -/
def reporterStop (caps : Caps) (state : FlowState) :
    Except String (TermNode × FlowState) :=
  (_node_reporter caps.fetchTitle caps.generate_text state).map
    fun s => (TermNode.reporter, s)

/-- The collector node followed by its conditional edge into the reporter
or finalize node. -/
def collectorStop (caps : Caps) (state : FlowState) :
    Except String (TermNode × FlowState) :=
  let s := _node_collector caps.fetchTitle state
  if _route_after_collect s == "reporter" then reporterStop caps s
  else Except.ok (TermNode.finalize, _node_finalize s)

/-- One full traversal of the compiled graph (`GRAPH.invoke`), following
the wiring of `langgraph_flow.py`: entry at ingest, then planner, then
searcher, then the conditional edges down to a terminal node. -/
def GRAPH_invoke (caps : Caps) (input : InvokeState) :
    Except String (TermNode × FlowState) :=
  let s := _node_ingest input
  let s := _node_planner s
  let s := _node_searcher caps.search s
  match _route_after_search s with
  | "collector" => collectorStop caps s
  | "reporter" => reporterStop caps s
  | "decider" =>
      match _node_decider caps.search s with
      | Except.error e => Except.error e
      | Except.ok s =>
          match _route_after_decider s with
          | "collector" => collectorStop caps s
          | "ask" => Except.ok (TermNode.ask, _node_ask s)
          | _ => Except.ok (TermNode.finish, _node_finish s)
  | "ask" => Except.ok (TermNode.ask, _node_ask s)
  | "finish" => Except.ok (TermNode.finish, _node_finish s)
  | _ => Except.ok (TermNode.finalize, _node_finalize s)

/-! Theorems -/

/-- C5: `_make_queries` emits, in fixed order, `base` and its four
site-qualified variants, appends the phone-qualified query only when
`phone` is truthy, truncates to at most 5 entries (dropping the
phone-qualified query first), returns the empty list when `base` is empty,
and on `first_name = "John", last_name = "Doe"` yields exactly the five
queries `John Doe`, `John Doe linkedin`, `John Doe github`,
`John Doe twitter`, `John Doe facebook`. -/
theorem make_queries_spec (o : Option Inputs) :
    _make_queries o =
      (if mkBase o = "" then []
       else
        ([mkBase o, mkBase o ++ " linkedin", mkBase o ++ " github",
          mkBase o ++ " twitter", mkBase o ++ " facebook"]
         ++ (if pyTruthyStr (o.bind Inputs.phone) then
               [mkBase o ++ " phone " ++ (o.bind Inputs.phone).getD ""]
             else [])).take 5)
    ∧ _make_queries (some { first_name := some "John", last_name := some "Doe" }) =
      ["John Doe", "John Doe linkedin", "John Doe github",
       "John Doe twitter", "John Doe facebook"] := by
  refine ⟨?_, by decide⟩
  unfold _make_queries
  by_cases h : mkBase o = ""
  · simp [h]
    rfl
  · have hb : (mkBase o).isEmpty = false := by
      simp only [Bool.eq_false_iff, ne_eq, String.isEmpty_iff]
      exact h
    by_cases hp : pyTruthyStr (o.bind Inputs.phone) <;>
      simp [h, hb, hp]

/-- C8: the planner never changes an already-set (truthy) `plan`, and
running the planner node twice equals running it once. -/
theorem planner_idempotent (s : FlowState) :
    (pyTruthyList s.plan = true → (_node_planner s).plan = s.plan)
    ∧ _node_planner (_node_planner s) = _node_planner s := by
  have he : ∀ t : FlowState, _node_planner t =
      if t.inputs.isSome && !pyTruthyList t.plan then
        { t with plan := some planSteps }
      else t := fun _ => rfl
  constructor
  · intro h
    rw [he s, if_neg (by simp [h])]
  · by_cases hc : s.inputs.isSome && !pyTruthyList s.plan
    · have h1 : _node_planner s = { s with plan := some planSteps } := by
        rw [he s, if_pos hc]
      rw [h1, he]
      simp [pyTruthyList, planSteps]
    · rw [he s, if_neg hc, he s, if_neg hc]

/-- Concrete state used to witness the planner idempotence claim. -/
def planWitState : FlowState :=
  { inputs := some { first_name := some "John" }, plan := some ["step"] }

/-- Witness for C8 at a state with a truthy plan. -/
theorem planner_idempotent_witness :
    (_node_planner planWitState).plan = planWitState.plan
    ∧ _node_planner (_node_planner planWitState) = _node_planner planWitState :=
  ⟨(planner_idempotent planWitState).1 (by decide),
   (planner_idempotent planWitState).2⟩

/-- C9: `_collect_details` changes at most the `title` field; when the
fetch yields no (truthy) title the candidate is returned unchanged; an
existing truthy title is never overwritten; and a fetched title is stored
exactly when the candidate's own title is falsy. -/
theorem collect_details_frame (fetch : String → Option String) (c : Candidate) :
    ((_collect_details fetch c).url = c.url
      ∧ (_collect_details fetch c).snippet = c.snippet
      ∧ (_collect_details fetch c).source_query = c.source_query)
    ∧ (pyTruthyStr (fetch c.url) = false → _collect_details fetch c = c)
    ∧ (pyTruthyStr c.title = true → _collect_details fetch c = c)
    ∧ (pyTruthyStr (fetch c.url) = true → pyTruthyStr c.title = false →
        _collect_details fetch c = { c with title := fetch c.url }) := by
  refine ⟨?_, ?_, ?_, ?_⟩
  · unfold _collect_details
    by_cases h : pyTruthyStr (fetch c.url) && !pyTruthyStr c.title <;> simp [h]
  · intro h
    unfold _collect_details
    simp [h]
  · intro h
    unfold _collect_details
    simp [h]
  · intro h1 h2
    unfold _collect_details
    simp [h1, h2]

/-- Witness for C9: a failing fetch returns the candidate unchanged, and a
truthy existing title survives a successful fetch. -/
theorem collect_details_frame_witness :
    _collect_details (fun _ => none)
        { title := none, url := "https://e.com", snippet := none, source_query := "q" }
      = { title := none, url := "https://e.com", snippet := none, source_query := "q" }
    ∧ _collect_details (fun _ => some "Fetched")
        { title := some "Kept", url := "https://e.com", snippet := none, source_query := "q" }
      = { title := some "Kept", url := "https://e.com", snippet := none, source_query := "q" } :=
  ⟨(collect_details_frame (fun _ => none) _).2.1 (by decide),
   (collect_details_frame (fun _ => some "Fetched") _).2.2.1 (by decide)⟩

/-- The raw results of a whole adapter call, flattened in discovery order
and annotated with the query that produced them. -/
def queryStream (search : String → Nat → List RawResult)
    (queries : List String) (max_results : Nat) : List (String × RawResult) :=
  queries.flatMap fun q => (search q max_results).map fun r => (q, r)

/-- The candidate a stream element contributes when its cleaned URL is
non-empty. -/
def validCand (p : String × RawResult) : Option Candidate :=
  if (cleanHref p.2).isEmpty then none else some (mkCand p.1 p.2)

/-- First-seen deduplication of an annotated result stream with an
accumulator of already-seen URLs; the loop of `_search_candidates`
computes it. -/
def dedupCands (seen : List String) : List (String × RawResult) → List Candidate
  | [] => []
  | (q, r) :: ps =>
      let href := cleanHref r
      if href.isEmpty || href ∈ seen then dedupCands seen ps
      else mkCand q r :: dedupCands (href :: seen) ps

lemma searchStep_eq (q : String) (cands : List Candidate) (seen : List String)
    (r : RawResult) :
    searchStep q (cands, seen) r =
      if ((cleanHref r).isEmpty || decide (cleanHref r ∈ seen)) = true then
        (cands, seen)
      else (cands ++ [mkCand q r], cleanHref r :: seen) := rfl

lemma dedupCands_cons (seen : List String) (q : String) (r : RawResult)
    (ps : List (String × RawResult)) :
    dedupCands seen ((q, r) :: ps) =
      if ((cleanHref r).isEmpty || decide (cleanHref r ∈ seen)) = true then
        dedupCands seen ps
      else mkCand q r :: dedupCands (cleanHref r :: seen) ps := rfl

lemma foldl_searchStep_eq (ps : List (String × RawResult)) :
    ∀ (cands : List Candidate) (seen : List String),
      (ps.foldl (fun acc p => searchStep p.1 acc p.2) (cands, seen)).1
        = cands ++ dedupCands seen ps := by
  induction ps with
  | nil => intro cands seen; simp [dedupCands]
  | cons p ps ih =>
      intro cands seen
      obtain ⟨q, r⟩ := p
      rw [List.foldl_cons]
      show (List.foldl (fun acc p => searchStep p.1 acc p.2)
        (searchStep q (cands, seen) r) ps).1 = _
      rw [searchStep_eq, dedupCands_cons]
      by_cases hg : ((cleanHref r).isEmpty || decide (cleanHref r ∈ seen)) = true
      · rw [if_pos hg, if_pos hg]
        exact ih cands seen
      · rw [if_neg hg, if_neg hg]
        rw [ih (cands ++ [mkCand q r]) (cleanHref r :: seen)]
        simp

lemma nested_foldl_eq (search : String → Nat → List RawResult)
    (max_results : Nat) (queries : List String) :
    ∀ acc : List Candidate × List String,
      queries.foldl
          (fun acc q => (search q max_results).foldl (searchStep q) acc) acc
        = (queryStream search queries max_results).foldl
            (fun acc p => searchStep p.1 acc p.2) acc := by
  induction queries with
  | nil => intro acc; simp [queryStream]
  | cons q qs ih =>
      intro acc
      simp only [List.foldl_cons, queryStream, List.flatMap_cons,
        List.foldl_append, List.foldl_map]
      exact ih _

/-- `_search_candidates` is the first-seen deduplication of the annotated
raw-result stream. -/
lemma search_candidates_eq (search : String → Nat → List RawResult)
    (queries : List String) (max_results : Nat) :
    _search_candidates search queries max_results
      = dedupCands [] (queryStream search queries max_results) := by
  unfold _search_candidates
  rw [nested_foldl_eq search max_results queries ([], [])]
  rw [foldl_searchStep_eq]
  simp

lemma dedupCands_mem :
    ∀ (ps : List (String × RawResult)) (seen : List String) (c : Candidate),
      c ∈ dedupCands seen ps → c.url ∉ seen ∧ c.url.isEmpty = false := by
  intro ps
  induction ps with
  | nil => intro seen c hc; simp [dedupCands] at hc
  | cons p ps ih =>
      intro seen c hc
      obtain ⟨q, r⟩ := p
      by_cases hg : ((cleanHref r).isEmpty || decide (cleanHref r ∈ seen)) = true
      · rw [dedupCands_cons, if_pos hg] at hc
        exact ih seen c hc
      · rw [dedupCands_cons, if_neg hg] at hc
        simp only [Bool.or_eq_true, decide_eq_true_eq, not_or] at hg
        rcases List.mem_cons.mp hc with hh | ht
        · subst hh
          refine ⟨hg.2, ?_⟩
          have := hg.1
          simp only [Bool.not_eq_true] at this
          exact this
        · have := ih (cleanHref r :: seen) c ht
          exact ⟨fun hs => this.1 (List.mem_cons_of_mem _ hs), this.2⟩

lemma dedupCands_nodup :
    ∀ (ps : List (String × RawResult)) (seen : List String),
      ((dedupCands seen ps).map Candidate.url).Nodup := by
  intro ps
  induction ps with
  | nil => intro seen; simp [dedupCands]
  | cons p ps ih =>
      intro seen
      obtain ⟨q, r⟩ := p
      by_cases hg : ((cleanHref r).isEmpty || decide (cleanHref r ∈ seen)) = true
      · rw [dedupCands_cons, if_pos hg]; exact ih seen
      · rw [dedupCands_cons, if_neg hg]
        simp only [List.map_cons, List.nodup_cons]
        refine ⟨?_, ih (cleanHref r :: seen)⟩
        intro hmem
        rcases List.mem_map.mp hmem with ⟨c, hc, hcu⟩
        have := (dedupCands_mem ps (cleanHref r :: seen) c hc).1
        exact this (by rw [hcu]; exact List.mem_cons_self _ _)

lemma dedupCands_sublist :
    ∀ (ps : List (String × RawResult)) (seen : List String),
      List.Sublist (dedupCands seen ps) (ps.filterMap validCand) := by
  intro ps
  induction ps with
  | nil => intro seen; simp [dedupCands]
  | cons p ps ih =>
      intro seen
      obtain ⟨q, r⟩ := p
      by_cases he : (cleanHref r).isEmpty = true
      · rw [dedupCands_cons, if_pos (by simp [he])]
        rw [List.filterMap_cons_none (show validCand (q, r) = none by
          simp [validCand, he])]
        exact ih seen
      · rw [List.filterMap_cons_some (show validCand (q, r) = some (mkCand q r) by
          simp [validCand, he])]
        by_cases hs : cleanHref r ∈ seen
        · rw [dedupCands_cons, if_pos (by simp [hs])]
          exact List.Sublist.cons _ (ih seen)
        · rw [dedupCands_cons, if_neg (by simp [he, hs])]
          exact List.Sublist.cons₂ _ (ih (cleanHref r :: seen))

lemma dedupCands_first :
    ∀ (ps : List (String × RawResult)) (seen : List String) (c : Candidate),
      c ∈ dedupCands seen ps →
      (ps.find? (fun p => cleanHref p.2 == c.url)).map (fun p => mkCand p.1 p.2)
        = some c := by
  intro ps
  induction ps with
  | nil => intro seen c hc; simp [dedupCands] at hc
  | cons p ps ih =>
      intro seen c hc
      obtain ⟨q, r⟩ := p
      by_cases hg : ((cleanHref r).isEmpty || decide (cleanHref r ∈ seen)) = true
      · rw [dedupCands_cons, if_pos hg] at hc
        have hmem := dedupCands_mem ps seen c hc
        have hne : cleanHref r ≠ c.url := by
          simp only [Bool.or_eq_true, decide_eq_true_eq] at hg
          intro heq
          rcases hg with hg | hg
          · rw [heq, hmem.2] at hg
            exact Bool.false_ne_true hg
          · rw [heq] at hg
            exact hmem.1 hg
        rw [List.find?_cons_of_neg _ (by simpa using hne)]
        exact ih seen c hc
      · rw [dedupCands_cons, if_neg hg] at hc
        rcases List.mem_cons.mp hc with hh | ht
        · subst hh
          rw [List.find?_cons_of_pos _ (by simp [mkCand])]
          rfl
        · have hmem := dedupCands_mem ps (cleanHref r :: seen) c ht
          have hne : cleanHref r ≠ c.url := by
            intro heq
            exact hmem.1 (by rw [← heq]; exact List.mem_cons_self _ _)
          rw [List.find?_cons_of_neg _ (by simpa using hne)]
          exact ih _ c ht

lemma dedupCands_complete :
    ∀ (ps : List (String × RawResult)) (seen : List String)
      (p : String × RawResult), p ∈ ps → (cleanHref p.2).isEmpty = false →
      cleanHref p.2 ∉ seen →
      cleanHref p.2 ∈ (dedupCands seen ps).map Candidate.url := by
  intro ps
  induction ps with
  | nil => intro seen p hp; simp at hp
  | cons p0 ps ih =>
      intro seen p hp hv hs
      obtain ⟨q, r⟩ := p0
      rcases List.mem_cons.mp hp with hh | ht
      · subst hh
        rw [dedupCands_cons, if_neg (by simp [hv, hs])]
        simp [mkCand]
      · by_cases hg : ((cleanHref r).isEmpty || decide (cleanHref r ∈ seen)) = true
        · rw [dedupCands_cons, if_pos hg]
          exact ih seen p ht hv hs
        · rw [dedupCands_cons, if_neg hg]
          by_cases heq : cleanHref p.2 = cleanHref r
          · simp [mkCand, heq]
          · have := ih (cleanHref r :: seen) p ht hv (by simp [hs, heq])
            simp only [List.map_cons, List.mem_cons]
            exact Or.inr this

/-- Membership in the annotated stream. -/
lemma mem_queryStream (search : String → Nat → List RawResult)
    (queries : List String) (max_results : Nat) (p : String × RawResult) :
    p ∈ queryStream search queries max_results ↔
      p.1 ∈ queries ∧ p.2 ∈ search p.1 max_results := by
  obtain ⟨q, r⟩ := p
  simp only [queryStream, List.mem_flatMap, List.mem_map]
  constructor
  · rintro ⟨q0, hq0, r0, hr0, heq⟩
    cases heq
    exact ⟨hq0, hr0⟩
  · rintro ⟨hq, hr⟩
    exact ⟨q, hq, r, hr, rfl⟩

/-- C4: for every behaviour of the external search capability and every
query sequence, the Web Search Adapter output has pairwise-distinct URLs,
contains no empty URL, is ordered as a subsequence of the discovery-order
stream of valid results, keeps for each URL the first raw result that
produced it, tags every candidate with the query that produced it, and
represents every non-empty URL of the stream. -/
theorem search_candidates_dedup (search : String → Nat → List RawResult)
    (queries : List String) (max_results : Nat) :
    (((_search_candidates search queries max_results).map Candidate.url).Nodup)
    ∧ (∀ c ∈ _search_candidates search queries max_results, c.url ≠ "")
    ∧ List.Sublist (_search_candidates search queries max_results)
        ((queryStream search queries max_results).filterMap validCand)
    ∧ (∀ c ∈ _search_candidates search queries max_results,
        ((queryStream search queries max_results).find?
            (fun p => cleanHref p.2 == c.url)).map (fun p => mkCand p.1 p.2)
          = some c)
    ∧ (∀ c ∈ _search_candidates search queries max_results,
        ∃ r, c.source_query ∈ queries ∧ r ∈ search c.source_query max_results
          ∧ c = mkCand c.source_query r)
    ∧ (∀ p ∈ queryStream search queries max_results, cleanHref p.2 ≠ "" →
        cleanHref p.2 ∈
          (_search_candidates search queries max_results).map Candidate.url) := by
  rw [search_candidates_eq]
  refine ⟨dedupCands_nodup _ _, ?_, dedupCands_sublist _ _,
    dedupCands_first _ _, ?_, ?_⟩
  · intro c hc
    have h2 := (dedupCands_mem _ _ c hc).2
    intro h
    rw [h] at h2
    exact absurd h2 (by decide)
  · intro c hc
    have hfind := dedupCands_first _ [] c hc
    cases hf : (queryStream search queries max_results).find?
        (fun p => cleanHref p.2 == c.url) with
    | none => rw [hf] at hfind; exact Option.noConfusion hfind
    | some p0 =>
        rw [hf] at hfind
        have hp0 : p0 ∈ queryStream search queries max_results :=
          List.mem_of_find?_eq_some hf
        have hmem := (mem_queryStream search queries max_results p0).mp hp0
        have hc2 : mkCand p0.1 p0.2 = c := Option.some.inj hfind
        refine ⟨p0.2, ?_, ?_, ?_⟩
        · rw [← hc2]; exact hmem.1
        · rw [← hc2]; exact hmem.2
        · rw [← hc2]; rfl
  · intro p hp hv
    refine dedupCands_complete _ [] p hp ?_ (by simp)
    simp only [Bool.eq_false_iff, ne_eq, String.isEmpty_iff]
    exact hv

/-- Raw results used to witness the dedup claim: two queries, a duplicated
URL across them. -/
def wRaw1 : RawResult := { title := some "T1", href := some "u1", body := some "b1" }

/-- Second raw result sharing the first URL. -/
def wRaw2 : RawResult := { title := some "Dup", href := some "u1", body := none }

/-- Third raw result with a fresh URL surrounded by whitespace. -/
def wRaw3 : RawResult := { title := none, href := some " u2 ", body := none }

/-- A concrete search capability for the dedup witness. -/
def wSearch : String → Nat → List RawResult :=
  fun q _ => if q = "q1" then [wRaw1, wRaw2] else [wRaw3]

/-- Witness for C4 at a concrete capability with a duplicate URL. -/
theorem search_candidates_dedup_witness :
    ((_search_candidates wSearch ["q1", "q2"] 5).map Candidate.url).Nodup
    ∧ (mkCand "q1" wRaw1).url ≠ "" :=
  ⟨(search_candidates_dedup wSearch ["q1", "q2"] 5).1,
   (search_candidates_dedup wSearch ["q1", "q2"] 5).2.1 (mkCand "q1" wRaw1)
     (by decide)⟩

lemma ask_awaiting (s : FlowState) : (_node_ask s).awaiting_user = some true := rfl

lemma finish_awaiting (s : FlowState) :
    (_node_finish s).awaiting_user = some false := by
  unfold _node_finish
  dsimp only
  split
  · split <;> rfl
  · rfl

lemma finalize_awaiting (s : FlowState) :
    (_node_finalize s).awaiting_user = some false := by
  obtain ⟨i, pl, ca, ci, sel, de, su, qu, re, aw, ud⟩ := s
  cases sel <;> unfold _node_finalize <;> dsimp only <;> (try split) <;> rfl

lemma reporter_awaiting (f : String → Option String)
    (g : String → Nat → Except String String) (s : FlowState) (out : FlowState)
    (h : _node_reporter f g s = Except.ok out) :
    out.awaiting_user = some false := by
  unfold _node_reporter at h
  dsimp only at h
  cases hm : _make_report g (reporterPrep f s) with
  | ok r =>
      rw [hm] at h
      injection h with h2
      rw [← h2]
  | error e =>
      rw [hm] at h
      exact Except.noConfusion h

lemma reporterStop_spec (caps : Caps) (s : FlowState) (n : TermNode)
    (out : FlowState) (h : reporterStop caps s = Except.ok (n, out)) :
    n = TermNode.reporter ∧ out.awaiting_user = some false := by
  unfold reporterStop at h
  cases hm : _node_reporter caps.fetchTitle caps.generate_text s with
  | ok r =>
      rw [hm] at h
      simp only [Except.map] at h
      injection h with h2
      injection h2 with hn ho
      exact ⟨hn.symm, ho ▸ reporter_awaiting _ _ _ _ hm⟩
  | error e =>
      rw [hm] at h
      simp [Except.map] at h

lemma collectorStop_spec (caps : Caps) (s : FlowState) (n : TermNode)
    (out : FlowState) (h : collectorStop caps s = Except.ok (n, out)) :
    (n = TermNode.reporter ∨ n = TermNode.finalize)
      ∧ out.awaiting_user = some false := by
  unfold collectorStop at h
  by_cases hr :
      (_route_after_collect (_node_collector caps.fetchTitle s) == "reporter") = true
  · rw [if_pos hr] at h
    have := reporterStop_spec caps _ n out h
    exact ⟨Or.inl this.1, this.2⟩
  · rw [if_neg hr] at h
    injection h with h2
    injection h2 with hn ho
    exact ⟨Or.inr hn.symm, ho ▸ finalize_awaiting _⟩

/-- C2: whenever one traversal of the graph returns a state, its
`awaiting_user` flag is `True` exactly when the traversal stopped at the
terminal `ask` node; the other terminal nodes (reporter, finalize, finish)
leave it `False`. -/
theorem awaiting_user_iff_ask (caps : Caps) (input : InvokeState) (n : TermNode)
    (s : FlowState) (h : GRAPH_invoke caps input = Except.ok (n, s)) :
    s.awaiting_user = some true ↔ n = TermNode.ask := by
  unfold GRAPH_invoke at h
  dsimp only at h
  split at h
  · rcases collectorStop_spec _ _ _ _ h with ⟨h1 | h1, h2⟩ <;> subst h1 <;> simp [h2]
  · rcases reporterStop_spec _ _ _ _ h with ⟨h1, h2⟩
    subst h1
    simp [h2]
  · split at h
    · exact Except.noConfusion h
    · split at h
      · rcases collectorStop_spec _ _ _ _ h with ⟨h1 | h1, h2⟩ <;> subst h1 <;>
          simp [h2]
      · injection h with h2
        injection h2 with hn ho
        subst hn
        simp [← ho, ask_awaiting]
      · injection h with h2
        injection h2 with hn ho
        subst hn
        simp [← ho, finish_awaiting]
  · injection h with h2
    injection h2 with hn ho
    subst hn
    simp [← ho, ask_awaiting]
  · injection h with h2
    injection h2 with hn ho
    subst hn
    simp [← ho, finish_awaiting]
  · injection h with h2
    injection h2 with hn ho
    subst hn
    simp [← ho, finalize_awaiting]

/-- Offline capabilities: empty search results, no page fetch, generation
through the deterministic fallback text. -/
def offlineCaps : Caps :=
  { search := fun _ _ => [], fetchTitle := fun _ => none,
    generate_text := fun p _ => Except.ok (DummyLLM.invoke p) }

/-- The state a traversal with nothing actionable returns. -/
def c2WitOut : FlowState :=
  { summary := some "No candidates found. Adjust search terms and try again.",
    awaiting_user := some false }

/-- Witness for C2: a traversal with nothing actionable ends at the finish
node with `awaiting_user = False`, and the equivalence holds there. -/
theorem awaiting_user_iff_ask_witness :
    GRAPH_invoke offlineCaps { state := {} } = Except.ok (TermNode.finish, c2WitOut)
    ∧ (c2WitOut.awaiting_user = some true ↔ TermNode.finish = TermNode.ask) :=
  ⟨rfl, awaiting_user_iff_ask offlineCaps { state := {} } TermNode.finish c2WitOut rfl⟩

/-- C3: on a negative decision with `current_index + 1` out of range, the
decider performs exactly one broadened retry: the existing queries plus the
two extra queries built from `first_name`/`last_name` suffixed with
"profile" and "resume", run with `max_results = 3`; a non-empty result
replaces `candidates`, resets `current_index` to 0 and sets
`awaiting_user = True`, while an empty result sets `awaiting_user = False`
and the exact summary `"Exhausted candidates without a match."`. -/
theorem decider_exhaustion (search : String → Nat → List RawResult)
    (s : FlowState)
    (hneg : decisionOf s ∈ negativeTokens)
    (hex : ¬(idxOf s + 1 < ((candidatesOf s).length : Int))) :
    _node_decider search s =
      (let broadened := (s.queries.getD []) ++
          [inputGetStr s.inputs Inputs.first_name ++ " " ++
             inputGetStr s.inputs Inputs.last_name ++ " profile",
           inputGetStr s.inputs Inputs.first_name ++ " " ++
             inputGetStr s.inputs Inputs.last_name ++ " resume"]
       let new_candidates := _search_candidates search broadened 3
       if !new_candidates.isEmpty then
         Except.ok { s with
           candidates := some new_candidates,
           current_index := some 0,
           awaiting_user := some true }
       else
         Except.ok { s with
           awaiting_user := some false,
           summary := some "Exhausted candidates without a match." }) := by
  have haff : decisionOf s ∉ affirmativeTokens := by
    simp only [negativeTokens, List.mem_cons, List.not_mem_nil, or_false] at hneg
    rcases hneg with h | h | h | h <;> rw [h] <;> decide
  unfold _node_decider
  dsimp only
  rw [if_neg haff, if_pos hneg, if_neg hex]

/-- Concrete state for the exhaustion witness: one candidate, index 0,
decision "no". -/
def c3WitState : FlowState :=
  { inputs := some { first_name := some "John", last_name := some "Doe" },
    candidates := some
      [{ title := some "Test Candidate",
         url := "https://example.com/profile",
         snippet := some "Profile snippet",
         source_query := "John Doe linkedin" }],
    current_index := some 0,
    queries := some ["John Doe"],
    user_decision := some "no" }

/-- Witness for C3: with one candidate, index 0, decision "no" and an empty
broadened retry, the decider ends unmatched with the exact summary. -/
theorem decider_exhaustion_witness :
    _node_decider (fun _ _ => []) c3WitState =
      Except.ok { c3WitState with
        awaiting_user := some false,
        summary := some "Exhausted candidates without a match." } :=
  (decider_exhaustion (fun _ _ => []) c3WitState (by decide) (by decide)).trans
    rfl

/-- The index invariant: whenever the candidate list is non-empty, the
working index is a valid (non-negative, in-range) index into it. -/
def idxInv (s : FlowState) : Prop :=
  candidatesOf s ≠ [] → 0 ≤ idxOf s ∧ idxOf s < ((candidatesOf s).length : Int)

/-- Totality of a generation capability (the spec contract: the capability
never raises). -/
def GenTotal (g : String → Nat → Except String String) : Prop :=
  ∀ p n, ∃ r, g p n = Except.ok r

lemma idxInv_frame {s t : FlowState} (hc : t.candidates = s.candidates)
    (hi : t.current_index = s.current_index) (h : idxInv s) : idxInv t := by
  intro hne
  unfold candidatesOf idxOf at *
  rw [hc, hi]
  exact h (by rwa [hc] at hne)

lemma planner_frame (s : FlowState) :
    (_node_planner s).candidates = s.candidates
      ∧ (_node_planner s).current_index = s.current_index := by
  unfold _node_planner
  split <;> exact ⟨rfl, rfl⟩

lemma collector_frame (f : String → Option String) (s : FlowState) :
    (_node_collector f s).candidates = s.candidates
      ∧ (_node_collector f s).current_index = s.current_index := by
  obtain ⟨i, pl, ca, ci, sel, de, su, qu, re, aw, ud⟩ := s
  cases sel <;> (unfold _node_collector; dsimp only; (try split) <;> exact ⟨rfl, rfl⟩)

lemma finalize_frame (s : FlowState) :
    (_node_finalize s).candidates = s.candidates
      ∧ (_node_finalize s).current_index = s.current_index := by
  obtain ⟨i, pl, ca, ci, sel, de, su, qu, re, aw, ud⟩ := s
  cases sel <;> (unfold _node_finalize; dsimp only; (try split) <;> exact ⟨rfl, rfl⟩)

lemma finish_frame (s : FlowState) :
    (_node_finish s).candidates = s.candidates
      ∧ (_node_finish s).current_index = s.current_index := by
  unfold _node_finish
  dsimp only
  split
  · split <;> exact ⟨rfl, rfl⟩
  · exact ⟨rfl, rfl⟩

lemma reporterPrep_frame (f : String → Option String) (s : FlowState) :
    (reporterPrep f s).candidates = s.candidates
      ∧ (reporterPrep f s).current_index = s.current_index := by
  obtain ⟨i, pl, ca, ci, sel, de, su, qu, re, aw, ud⟩ := s
  cases de <;> cases sel <;> exact ⟨rfl, rfl⟩

lemma reporter_exists (f : String → Option String)
    (g : String → Nat → Except String String) (hg : GenTotal g) (s : FlowState) :
    ∃ out, _node_reporter f g s = Except.ok out
      ∧ out.candidates = s.candidates ∧ out.current_index = s.current_index := by
  obtain ⟨r, hr⟩ := hg (reportPrompt (reporterPrep f s)) 2048
  refine ⟨{ reporterPrep f s with report := some r, awaiting_user := some false },
    ?_, ?_, ?_⟩
  · unfold _node_reporter
    dsimp only
    rw [show _make_report g (reporterPrep f s)
        = g (reportPrompt (reporterPrep f s)) 2048 from rfl, hr]
  · exact (reporterPrep_frame f s).1
  · exact (reporterPrep_frame f s).2

lemma reporterStop_exists (caps : Caps) (hg : GenTotal caps.generate_text)
    (s : FlowState) :
    ∃ n out, reporterStop caps s = Except.ok (n, out)
      ∧ out.candidates = s.candidates ∧ out.current_index = s.current_index := by
  obtain ⟨out, hok, hc, hi⟩ := reporter_exists caps.fetchTitle caps.generate_text hg s
  refine ⟨TermNode.reporter, out, ?_, hc, hi⟩
  unfold reporterStop
  rw [hok]
  rfl

lemma collectorStop_exists (caps : Caps) (hg : GenTotal caps.generate_text)
    (s : FlowState) :
    ∃ n out, collectorStop caps s = Except.ok (n, out)
      ∧ out.candidates = s.candidates ∧ out.current_index = s.current_index := by
  unfold collectorStop
  by_cases hr :
      (_route_after_collect (_node_collector caps.fetchTitle s) == "reporter") = true
  · rw [if_pos hr]
    obtain ⟨n, out, hok, hc, hi⟩ :=
      reporterStop_exists caps hg (_node_collector caps.fetchTitle s)
    exact ⟨n, out, hok,
      hc.trans (collector_frame caps.fetchTitle s).1,
      hi.trans (collector_frame caps.fetchTitle s).2⟩
  · rw [if_neg hr]
    exact ⟨TermNode.finalize, _, rfl,
      (finalize_frame _).1.trans (collector_frame caps.fetchTitle s).1,
      (finalize_frame _).2.trans (collector_frame caps.fetchTitle s).2⟩

lemma searcher_inv (search : String → Nat → List RawResult) (s : FlowState)
    (h : idxInv s) : idxInv (_node_searcher search s) := by
  by_cases hc : (!pyTruthyList s.candidates && s.inputs.isSome) = true
  · have heq : _node_searcher search s =
        { s with
            queries := some (_make_queries s.inputs),
            candidates := some (_search_candidates search (_make_queries s.inputs) 5),
            current_index := some 0 } := by
      unfold _node_searcher
      rw [if_pos hc]
    rw [heq]
    intro hne
    have hne2 : _search_candidates search (_make_queries s.inputs) 5 ≠ [] := hne
    have hpos : 0 < (_search_candidates search (_make_queries s.inputs) 5).length :=
      List.length_pos.mpr hne2
    have h0 : idxOf
        ({ s with
            queries := some (_make_queries s.inputs),
            candidates := some (_search_candidates search (_make_queries s.inputs) 5),
            current_index := some 0 } : FlowState) = 0 := rfl
    have h1 : candidatesOf
        ({ s with
            queries := some (_make_queries s.inputs),
            candidates := some (_search_candidates search (_make_queries s.inputs) 5),
            current_index := some 0 } : FlowState)
        = _search_candidates search (_make_queries s.inputs) 5 := rfl
    rw [h0, h1]
    omega
  · have heq : _node_searcher search s = s := by
      unfold _node_searcher
      rw [if_neg hc]
    rw [heq]
    exact h

lemma decider_ok (search : String → Nat → List RawResult) (s : FlowState)
    (hinv : idxInv s) :
    ∃ out, _node_decider search s = Except.ok out ∧ idxInv out := by
  unfold _node_decider
  dsimp only
  by_cases ha : decisionOf s ∈ affirmativeTokens
  · rw [if_pos ha]
    by_cases hce : (candidatesOf s).isEmpty = true
    · rw [if_pos hce]
      exact ⟨s, rfl, hinv⟩
    · rw [if_neg hce]
      have hne : candidatesOf s ≠ [] := by
        simpa [List.isEmpty_iff] using hce
      obtain ⟨h0, hl⟩ := hinv hne
      have hlt : (idxOf s).toNat < (candidatesOf s).length := by omega
      have hidx : pyIndex (candidatesOf s) (idxOf s)
          = some ((candidatesOf s).get ⟨(idxOf s).toNat, hlt⟩) := by
        unfold pyIndex
        rw [if_pos h0]
        exact List.get?_eq_get hlt
      rw [hidx]
      refine ⟨_, rfl, ?_⟩
      intro hne2
      exact hinv hne2
  · rw [if_neg ha]
    by_cases hn : decisionOf s ∈ negativeTokens
    · rw [if_pos hn]
      by_cases hlt : idxOf s + 1 < ((candidatesOf s).length : Int)
      · rw [if_pos hlt]
        refine ⟨_, rfl, ?_⟩
        intro hne2
        have hne : candidatesOf s ≠ [] := hne2
        obtain ⟨h0, _⟩ := hinv hne
        have hcand : candidatesOf
            ({ s with
                current_index := some (idxOf s + 1),
                awaiting_user := some true } : FlowState) = candidatesOf s := rfl
        have hidx2 : idxOf
            ({ s with
                current_index := some (idxOf s + 1),
                awaiting_user := some true } : FlowState) = idxOf s + 1 := rfl
        rw [hcand, hidx2]
        omega
      · rw [if_neg hlt]
        by_cases hb :
            (_search_candidates search
              ((s.queries.getD []) ++
                [inputGetStr s.inputs Inputs.first_name ++ " " ++
                   inputGetStr s.inputs Inputs.last_name ++ " profile",
                 inputGetStr s.inputs Inputs.first_name ++ " " ++
                   inputGetStr s.inputs Inputs.last_name ++ " resume"]) 3).isEmpty
            = true
        · rw [if_neg (by simp [hb])]
          refine ⟨_, rfl, ?_⟩
          intro hne2
          exact hinv hne2
        · rw [if_pos (by simp [hb])]
          refine ⟨_, rfl, ?_⟩
          intro hne2
          have hne3 : (_search_candidates search
              ((s.queries.getD []) ++
                [inputGetStr s.inputs Inputs.first_name ++ " " ++
                   inputGetStr s.inputs Inputs.last_name ++ " profile",
                 inputGetStr s.inputs Inputs.first_name ++ " " ++
                   inputGetStr s.inputs Inputs.last_name ++ " resume"]) 3) ≠ [] := by
            simpa [List.isEmpty_iff] using hb
          have hpos := List.length_pos.mpr hne3
          have hposI : (0 : Int) <
              ((_search_candidates search
                ((s.queries.getD []) ++
                  [inputGetStr s.inputs Inputs.first_name ++ " " ++
                     inputGetStr s.inputs Inputs.last_name ++ " profile",
                   inputGetStr s.inputs Inputs.first_name ++ " " ++
                     inputGetStr s.inputs Inputs.last_name ++ " resume"]) 3).length : Int) := by
            exact_mod_cast hpos
          exact ⟨Int.le_refl 0, hposI⟩
    · rw [if_neg hn]
      refine ⟨_, rfl, ?_⟩
      intro hne2
      exact hinv hne2

/-- The candidate used in the repository test and in the spec scenarios. -/
def testCandidate : Candidate :=
  { title := some "Test Candidate", url := "https://example.com/profile",
    snippet := some "Profile snippet", source_query := "John Doe linkedin" }

/-- An externally supplied prior state with an out-of-range index and an
affirmative decision. -/
def badIndexState : FlowState :=
  { inputs := some { first_name := some "John", last_name := some "Doe" },
    candidates := some [testCandidate],
    current_index := some 5,
    user_decision := some "yes" }

/-- C10: for every ingested state satisfying the index invariant (which all
engine-produced states do: the searcher and a successful broadened retry
reset the index to 0, and the negative branch increments it only below the
list length), a traversal with a non-raising generation capability returns
normally and preserves the invariant — the affirmative lookup
`candidates[current_index]` never goes out of range; an arbitrary external
prior state with an out-of-range index and an affirmative decision instead
makes the traversal raise IndexError. -/
theorem decider_index_safety :
    (∀ (caps : Caps) (input : InvokeState), GenTotal caps.generate_text →
      idxInv (_node_ingest input) →
      ∃ n out, GRAPH_invoke caps input = Except.ok (n, out) ∧ idxInv out)
    ∧ GRAPH_invoke offlineCaps { state := badIndexState }
        = Except.error "IndexError: list index out of range" := by
  constructor
  · intro caps input hg hinv
    have hinv2 : idxInv (_node_planner (_node_ingest input)) :=
      idxInv_frame (planner_frame _).1 (planner_frame _).2 hinv
    have hinv3 :
        idxInv (_node_searcher caps.search (_node_planner (_node_ingest input))) :=
      searcher_inv _ _ hinv2
    unfold GRAPH_invoke
    dsimp only
    split
    · obtain ⟨n, out, hok, hcd, hix⟩ := collectorStop_exists caps hg _
      exact ⟨n, out, hok, idxInv_frame hcd hix hinv3⟩
    · obtain ⟨n, out, hok, hcd, hix⟩ := reporterStop_exists caps hg _
      exact ⟨n, out, hok, idxInv_frame hcd hix hinv3⟩
    · obtain ⟨s4, hok4, hinv4⟩ := decider_ok caps.search _ hinv3
      rw [hok4]
      dsimp only
      split
      · obtain ⟨n, out, hok, hcd, hix⟩ := collectorStop_exists caps hg s4
        exact ⟨n, out, hok, idxInv_frame hcd hix hinv4⟩
      · exact ⟨TermNode.ask, _node_ask s4, rfl, idxInv_frame rfl rfl hinv4⟩
      · exact ⟨TermNode.finish, _node_finish s4, rfl,
          idxInv_frame (finish_frame s4).1 (finish_frame s4).2 hinv4⟩
    · exact ⟨TermNode.ask, _, rfl, idxInv_frame rfl rfl hinv3⟩
    · exact ⟨TermNode.finish, _, rfl,
        idxInv_frame (finish_frame _).1 (finish_frame _).2 hinv3⟩
    · exact ⟨TermNode.finalize, _, rfl,
        idxInv_frame (finalize_frame _).1 (finalize_frame _).2 hinv3⟩
  · rfl

/-- Witness for C10 at an in-range state: the traversal returns and the
invariant holds on the output. -/
theorem decider_index_safety_witness :
    ∃ n out, GRAPH_invoke offlineCaps
        { state := { badIndexState with current_index := some 0 } }
        = Except.ok (n, out) ∧ idxInv out :=
  decider_index_safety.1 offlineCaps
    { state := { badIndexState with current_index := some 0 } }
    (fun p _ => ⟨DummyLLM.invoke p, rfl⟩)
    (fun _ => ⟨by decide, by decide⟩)

/-- The capabilities of a no-provider environment as the code has them:
empty search, no fetch, and `_make_report` calling the missing
`generate_text` attribute on `DummyLLM`. -/
def dummyCaps : Caps :=
  { search := fun _ _ => [], fetchTitle := fun _ => none,
    generate_text := dummyGenerateText }

/-- The confirm-yes input state of the spec scenario and of the repository
test `test_flow_fix.py`. -/
def confirmYesState : FlowState :=
  { inputs := some { first_name := some "John", last_name := some "Doe" },
    candidates := some [testCandidate],
    current_index := some 0,
    user_decision := some "yes" }

/-- The state the confirm-yes traversal holds when the reporter node calls
the generation capability. -/
def c1ReportState : FlowState :=
  { confirmYesState with
    plan := some planSteps,
    selected := some testCandidate,
    details := some testCandidate,
    summary := some (pyOrTitleUrl testCandidate),
    awaiting_user := some false }

/-- The state the confirm-yes traversal returns under the intended
fallback generation. -/
def c1FinalState : FlowState :=
  { c1ReportState with
    report := some (DummyLLM.invoke (reportPrompt c1ReportState)),
    awaiting_user := some false }

lemma dummy_invoke_ne_empty (t : String) : DummyLLM.invoke t ≠ "" := by
  intro h
  have hd := congrArg String.data h
  simp [DummyLLM.invoke, String.data_append] at hd

/-- C1: on the confirm-yes input state with no LLM provider configured, the
traversal does not return a state at all — the reporter node raises
AttributeError because `DummyLLM` has no `generate_text` — while with the
intended fallback (`DummyLLM.invoke`) as the generation capability the same
traversal ends at the reporter node with the candidate selected,
`awaiting_user = False`, a truthy summary and a non-empty report. -/
theorem confirm_yes_scenario :
    GRAPH_invoke dummyCaps { state := confirmYesState }
      = Except.error "AttributeError: DummyLLM object has no attribute generate_text"
    ∧ GRAPH_invoke offlineCaps { state := confirmYesState }
      = Except.ok (TermNode.reporter, c1FinalState)
    ∧ c1FinalState.selected = some testCandidate
    ∧ c1FinalState.awaiting_user = some false
    ∧ pyTruthyStr c1FinalState.summary = true
    ∧ c1FinalState.report.getD "" ≠ "" := by
  refine ⟨rfl, rfl, rfl, rfl, rfl, ?_⟩
  exact dummy_invoke_ne_empty _

/-- C6: with no provider configured the code never reaches a fallback
report: `_make_report` fails on every state with the AttributeError raised
by the `generate_text` lookup on `DummyLLM`; the deterministic degraded
text the class actually provides is its `invoke` method — a fixed prefix
tag, the first 4000 characters of the prompt and a fixed trailer. -/
theorem make_report_no_provider (state : FlowState) :
    _make_report dummyGenerateText state
      = Except.error "AttributeError: DummyLLM object has no attribute generate_text"
    ∧ DummyLLM.invoke (reportPrompt state)
      = "[FALLBACK REPORT]\n" ++ pyTake (reportPrompt state) 4000 ++
          "\n-- End of fallback. Provide API keys for better results." :=
  ⟨rfl, rfl⟩

end Search4People
